import Mathlib

/-!
# Verification of the multi-campus stock tracker core

This file is a shallow embedding, in Lean 4, of the stock-mutation,
transfer, audit-trail, dashboard and spreadsheet-import logic of the
Flask application under `src/app` (`routes/stock.py`, `routes/excel.py`,
`models.py`, `forms.py`), together with theorems settling the frozen
claims about it.

Embedding conventions:

* Machine/database integers (`quantity`, ids) are `Int`/`Nat`; monetary
  values (`unit_price`, `total_value`, Python floats) are `ℚ`.  Exact
  rational arithmetic stands in for Python float arithmetic; the claims
  under study are about which formula is computed, not about rounding.
* Every write path of the application assigns a numeric value to
  `unit_price` (forms substitute `or 0.0`, the import parses a float,
  transfer copies), so `unit_price` is embedded as a plain `ℚ`; the
  Python idiom `x or 0` on a number is kept literally as `pyOrZeroQ`.
* Database tables are lists of rows.  The order of `DB.stocks` models
  the order in which the storage engine returns rows for an *unordered*
  query (`.first()` without `order_by`): SQL leaves that order
  unspecified, so it is not assumed to coincide with id order.
  Appending models row insertion.
* `db.session` mutation plus `commit` is modelled by returning the new
  database value; a request that flashes an error and re-renders leaves
  the database unchanged and is modelled as the identity.
* The session has `autoflush` enabled (Flask-SQLAlchemy default), so a
  query issued mid-operation sees earlier pending writes of the same
  operation; the embedding therefore runs queries against the already
  updated lists.
* Stock columns never referenced by any claim or by the control flow of
  the embedded routes (`serial_number`, `manufacturer`, `model`,
  `purchase_date`, `warranty_expiry`, `department`, timestamps) are
  omitted from the row structure; they are write-only passthroughs in
  the embedded code paths.
* Python `str(...)` applied to already-typed audit values is abstracted
  by the tagged type `PyVal` (Python's rendering is injective on the
  `int`/`float`/`str` values the routes log, and the claims concern
  which values are logged, not their decimal rendering).
-/

/-- A Python value logged into an audit row (`old_value` / `new_value`):
the routes log ints (quantities), floats (prices) and strings
(names).  `str(...)` in `log_stock_action` is abstracted as the identity
on this tagged representation. -/
inductive PyVal where
  | intV (n : Int)
  | ratV (q : ℚ)
  | strV (s : String)
deriving Repr, DecidableEq

/-- A pandas cell as seen by `upload_excel` after `pd.read_excel`:
missing/NaN (`na`), an integer, a float, or a string. -/
inductive PyCell where
  | na
  | intC (n : Int)
  | floatC (q : ℚ)
  | strC (s : String)
deriving Repr, DecidableEq

/-- `pd.notna(cell)`. -/
def cellNotna : PyCell → Bool
  | .na => false
  | _ => true

/-- Python `str(cell)` for a pandas cell (`str(nan) = "nan"`); the
rendering of numeric cells is abstracted by `toString`, which like
Python's rendering never produces `""` or `"nan"` for a number. -/
def pyStrCell : PyCell → String
  | .na => "nan"
  | .intC n => toString n
  | .floatC q => toString q
  | .strC s => s

/-- Python `str.strip()` — drop leading/trailing whitespace
(implemented structurally over the character list so that concrete
witnesses evaluate in the kernel). -/
def pyStrip (s : String) : String :=
  ⟨((s.data.dropWhile Char.isWhitespace).reverse.dropWhile Char.isWhitespace).reverse⟩

/-- Decimal value of a digit list (callers guarantee digits only). -/
def digitsToNat (l : List Char) : Nat :=
  l.foldl (fun acc c => acc * 10 + (c.toNat - 48)) 0

/-- Python `int(s)` on a string: optional surrounding whitespace,
optional sign, decimal digits; `none` models the `ValueError` raised
otherwise (underscore separators are not modelled). -/
def pyIntOfString (s : String) : Option Int :=
  match (pyStrip s).data with
  | [] => none
  | c :: rest =>
    if c = '+' then
      if rest ≠ [] ∧ rest.all Char.isDigit then some (digitsToNat rest) else none
    else if c = '-' then
      if rest ≠ [] ∧ rest.all Char.isDigit then some (-(digitsToNat rest : Int)) else none
    else if (c :: rest).all Char.isDigit then some (digitsToNat (c :: rest))
    else none

/-- Truncation toward zero, as Python `int(float)`. -/
def ratTruncate (q : ℚ) : Int :=
  if 0 ≤ q then ⌊q⌋ else -⌊-q⌋

/-- Python `int(cell)`; `none` models a raised exception. -/
def pyIntCell : PyCell → Option Int
  | .na => none
  | .intC n => some n
  | .floatC q => some (ratTruncate q)
  | .strC s => pyIntOfString s

/-- Python `float(s)` on a string: optional whitespace, optional sign,
digits with at most one decimal point; `none` models `ValueError`
(scientific notation and `"inf"`/`"nan"` literals are not modelled —
no claim involves them). -/
def pyFloatOfString (s : String) : Option ℚ :=
  let signed : Bool × List Char :=
    match (pyStrip s).data with
    | '-' :: rest => (true, rest)
    | '+' :: rest => (false, rest)
    | t => (false, t)
  let neg := signed.1
  let u := signed.2
  let mk : Nat → Nat → Nat → ℚ := fun ip fp fd =>
    let v : ℚ := (ip : ℚ) + (fp : ℚ) / ((10 : ℚ) ^ fd)
    if neg then -v else v
  if u.contains '.' then
    let a := u.takeWhile (fun c => c ≠ '.')
    let b := (u.dropWhile (fun c => c ≠ '.')).drop 1
    if (a ≠ [] ∨ b ≠ []) ∧ a.all Char.isDigit ∧ b.all Char.isDigit then
      some (mk (digitsToNat a) (digitsToNat b) b.length)
    else none
  else if u ≠ [] ∧ u.all Char.isDigit then some (mk (digitsToNat u) 0 0)
  else none

/-- Python `float(cell)`; `none` models a raised exception. -/
def pyFloatCell : PyCell → Option ℚ
  | .na => none
  | .intC n => some (n : ℚ)
  | .floatC q => some q
  | .strC s => pyFloatOfString s

/-- Python `q or 0` on a number (`0` is falsy, hence mapped to the
right operand `0`; the value is unchanged either way). -/
def pyOrZeroQ (q : ℚ) : ℚ := if q = 0 then 0 else q

/-- Python `x or 0` on an optional int (form data). -/
def pyOrZeroOptI (x : Option Int) : Int :=
  match x with
  | none => 0
  | some n => if n = 0 then 0 else n

/-- Python `x or 0.0` on an optional float (form data). -/
def pyOrZeroOptQ (x : Option ℚ) : ℚ :=
  match x with
  | none => 0
  | some q => if q = 0 then 0 else q

/-- `pyOrZeroQ` is the identity on values. -/
theorem pyOrZeroQ_eq (q : ℚ) : pyOrZeroQ q = q := by
  unfold pyOrZeroQ; split <;> simp_all

/-- ASCII lower-casing of one character (Python `str.lower()`
restricted to ASCII — the usernames the import matches are ASCII). -/
def asciiLowerChar (c : Char) : Char :=
  if 'A' ≤ c ∧ c ≤ 'Z' then Char.ofNat (c.toNat + 32) else c

/-- Python `s.lower()` (ASCII, structurally computable). -/
def pyLower (s : String) : String := ⟨s.data.map asciiLowerChar⟩

/-- A `campuses` row (`models.Campus`). -/
structure Campus where
  id : Nat
  name : String
  code : String
  address : Option String
deriving Repr, DecidableEq

/-- A `users` row (`models.User`), restricted to the columns the
embedded routes read. -/
structure UserRow where
  id : Nat
  username : String
deriving Repr, DecidableEq

/-- A `stocks` row (`models.Stock`), restricted to the columns the
embedded routes read or that the claims mention. -/
structure StockRow where
  id : Nat
  item_name : String
  category : Option String
  quantity : Int
  unit : Option String
  unit_price : ℚ
  total_value : ℚ
  condition : String
  status : String
  low_stock_threshold : Int
  remarks : Option String
  campus_id : Nat
  asset_tag : Option String
  assigned_to : Option Nat
  added_by : String
deriving Repr, DecidableEq

/-- A `stock_history` row (`models.StockHistory`), the immutable audit
record. -/
structure HistoryEntry where
  stock_id : Option Nat
  item_name : String
  campus_name : Option String
  action : String
  field_changed : Option String
  old_value : Option PyVal
  new_value : Option PyVal
  changed_by : String
deriving Repr, DecidableEq

/-- A `stock_transfers` row (`models.StockTransfer`). -/
structure TransferRow where
  stock_id : Option Nat
  item_name : String
  quantity_transferred : Int
  from_campus_id : Nat
  to_campus_id : Nat
  transferred_by : String
  remarks : Option String
deriving Repr, DecidableEq

/-- The database state: the five entity tables (history and transfers
are append-only logs; `stocks` order is the engine's return order for
unordered queries). -/
structure DB where
  campuses : List Campus
  users : List UserRow
  stocks : List StockRow
  history : List HistoryEntry
  transfers : List TransferRow
deriving Repr, DecidableEq

/-- `db.session.get(Stock, i)` — primary-key lookup. -/
def getStock (db : DB) (i : Nat) : Option StockRow :=
  db.stocks.find? (fun s => s.id = i)

/-- `db.session.get(Campus, i)` — primary-key lookup. -/
def getCampus (db : DB) (i : Nat) : Option Campus :=
  db.campuses.find? (fun c => c.id = i)

/-- The primary key the engine hands to the next inserted stock row at
flush time (one larger than every existing id). -/
def freshStockId (db : DB) : Nat :=
  (db.stocks.map (fun s => s.id)).foldl max 0 + 1

/-- ORM object mutation: replacing the row bearing a given primary key
(`db.session.get` returns the one live object per key; keys are unique
in reachable states). -/
def updateStockRow (stocks : List StockRow) (i : Nat) (r : StockRow) : List StockRow :=
  stocks.map (fun s => if s.id = i then r else s)

/-- `log_stock_action` (`routes/stock.py`): build one `StockHistory`
row from an optional stock reference.  `stock.campus.name` is the
back-reference, i.e. a campus-table lookup on the row's `campus_id`. -/
def log_stock_action (campuses : List Campus) (stock : Option StockRow) (action : String)
    (changed_by : String) (field_changed : Option String) (old_value : Option PyVal)
    (new_value : Option PyVal) : HistoryEntry :=
  { stock_id := stock.map (fun s => s.id)
    item_name := match stock with
      | some s => s.item_name
      | none => "N/A"
    campus_name := match stock with
      | some s => (campuses.find? (fun c => c.id = s.campus_id)).map (fun c => c.name)
      | none => none
    action := action
    field_changed := field_changed
    old_value := old_value
    new_value := new_value
    changed_by := changed_by }

/-- Validated `StockForm` data (`forms.py`): `category` and `condition`
are select fields carrying strings, numeric fields are optional data
that the routes pass through `or 0`. -/
structure StockForm where
  item_name : String
  category : String
  quantity : Option Int
  unit : Option String
  unit_price : Option ℚ
  condition : String
  low_stock_threshold : Option Int
  campus_id : Nat
  remarks : Option String
deriving Repr, DecidableEq

/-- `StockForm.validate_on_submit()` (`forms.py`): `DataRequired` on
`item_name` (non-empty) and on `quantity` (a falsy `0`/`None` fails),
`NumberRange(min=0)` on `quantity` and `unit_price`, `campus_id` drawn
from the campus choices, `condition` from its three choices.
(`Length(max=...)` caps are not modelled; no claim involves them.) -/
def stockFormValid (db : DB) (f : StockForm) : Bool :=
  f.item_name ≠ "" &&
  (match f.quantity with
   | none => false
   | some n => n ≠ 0 && 0 ≤ n) &&
  (match f.unit_price with
   | none => true
   | some q => decide (0 ≤ q)) &&
  (db.campuses.map (fun c => c.id)).contains f.campus_id &&
  ["Good", "Damaged", "Needs Repair"].contains f.condition

/-- `add_stock` (`routes/stock.py`): on a valid form, build the row
(`total_value = quantity * unit_price`), flush (assigning the fresh
id), log `created`, commit.  Otherwise re-render with no change. -/
def add_stock (db : DB) (form : StockForm) (user : String) : DB :=
  if stockFormValid db form then
    let quantity := pyOrZeroOptI form.quantity
    let unit_price := pyOrZeroOptQ form.unit_price
    let row : StockRow :=
      { id := freshStockId db
        item_name := form.item_name
        category := some form.category
        quantity := quantity
        unit := form.unit
        unit_price := unit_price
        total_value := quantity * unit_price
        condition := form.condition
        status := "Active"
        low_stock_threshold := match form.low_stock_threshold with
          | some t => t
          | none => 10
        remarks := form.remarks
        campus_id := form.campus_id
        asset_tag := none
        assigned_to := none
        added_by := user }
    { db with
        stocks := db.stocks ++ [row]
        history := db.history ++
          [log_stock_action db.campuses (some row) "created" user none none none] }
  else db

/-- The change list computed by `edit_stock` *before* the new values
are applied: one `(field, old, new)` triple per differing tracked
field, in source order (`item_name`, `category`, `quantity`,
`unit_price`, `condition`, `campus`).  A `campus` change logs the two
campus names (falling back to the stringified id). -/
def editChanges (db : DB) (stock : StockRow) (form : StockForm) :
    List (String × Option PyVal × Option PyVal) :=
  (if stock.item_name ≠ form.item_name then
    [("item_name", some (.strV stock.item_name), some (.strV form.item_name))] else []) ++
  (if stock.category ≠ some form.category then
    [("category", stock.category.map .strV, some (.strV form.category))] else []) ++
  (if stock.quantity ≠ pyOrZeroOptI form.quantity then
    [("quantity", some (.intV stock.quantity), some (.intV (pyOrZeroOptI form.quantity)))] else []) ++
  (if stock.unit_price ≠ pyOrZeroOptQ form.unit_price then
    [("unit_price", some (.ratV stock.unit_price), some (.ratV (pyOrZeroOptQ form.unit_price)))] else []) ++
  (if stock.condition ≠ form.condition then
    [("condition", some (.strV stock.condition), some (.strV form.condition))] else []) ++
  (if stock.campus_id ≠ form.campus_id then
    [("campus",
      some (.strV (match getCampus db stock.campus_id with
        | some c => c.name
        | none => toString stock.campus_id)),
      some (.strV (match getCampus db form.campus_id with
        | some c => c.name
        | none => toString form.campus_id)))] else [])

/-- The field assignments of `edit_stock`: apply the form values and
recompute `total_value = quantity * unit_price` unconditionally. -/
def applyStockForm (stock : StockRow) (form : StockForm) : StockRow :=
  { stock with
      item_name := form.item_name
      category := some form.category
      quantity := pyOrZeroOptI form.quantity
      unit := form.unit
      unit_price := pyOrZeroOptQ form.unit_price
      total_value := pyOrZeroOptI form.quantity * pyOrZeroOptQ form.unit_price
      condition := form.condition
      low_stock_threshold := match form.low_stock_threshold with
        | some t => t
        | none => 10
      campus_id := form.campus_id
      remarks := form.remarks }

/-- `edit_stock` (`routes/stock.py`): diff the tracked fields against
the prior in-memory values, apply the form, then log one `updated`
entry per change — or a single generic `updated` entry when nothing
tracked changed.  The entries are logged from the already-mutated
object, so their `item_name`/`campus_name` snapshots are the *new*
values. -/
def edit_stock (db : DB) (stock_id : Nat) (form : StockForm) (user : String) : DB :=
  match getStock db stock_id with
  | none => db
  | some stock =>
    if stockFormValid db form then
      let changes := editChanges db stock form
      let stock' := applyStockForm stock form
      let entries :=
        if changes.isEmpty then
          [log_stock_action db.campuses (some stock') "updated" user none none none]
        else
          changes.map (fun c =>
            log_stock_action db.campuses (some stock') "updated" user (some c.1) c.2.1 c.2.2)
      { db with
          stocks := updateStockRow db.stocks stock_id stock'
          history := db.history ++ entries }
    else db

/-- `delete_stock` (`routes/stock.py`): log the `deleted` entry from
the still-live row (snapshotting its name and campus), then remove the
row and commit. -/
def delete_stock (db : DB) (stock_id : Nat) (user : String) : DB :=
  match getStock db stock_id with
  | none => db
  | some stock =>
    { db with
        history := db.history ++
          [log_stock_action db.campuses (some stock) "deleted" user none none none]
        stocks := db.stocks.filter (fun s => s.id ≠ stock_id) }

/-- Validated `StockTransferForm` data (`forms.py`). -/
structure TransferForm where
  stock_id : Nat
  to_campus_id : Nat
  quantity : Int
  remarks : Option String
deriving Repr, DecidableEq

/-- `StockTransferForm.validate_on_submit()` for the transfer page of
campus `campus_id` (`routes/stock.py`): the stock choice list holds the
stocks of that campus, the destination choice list holds the *other*
campuses, and `NumberRange(min=1)` bounds the quantity. -/
def transferFormValid (db : DB) (campus_id : Nat) (f : TransferForm) : Bool :=
  ((db.stocks.filter (fun s => s.campus_id = campus_id)).map (fun s => s.id)).contains f.stock_id &&
  ((db.campuses.filter (fun c => c.id ≠ campus_id)).map (fun c => c.id)).contains f.to_campus_id &&
  decide (1 ≤ f.quantity)

/-- The merge lookup key of `transfer_stock`:
`filter_by(item_name=stock.item_name, campus_id=to_campus.id,
category=stock.category)`. -/
def transferMatch (stock : StockRow) (toCampusId : Nat) (s : StockRow) : Bool :=
  s.item_name = stock.item_name && s.campus_id = toCampusId && s.category = stock.category

/-- The success branch of `transfer_stock`: decrement the source row,
merge into the first matching destination row returned by the
(unordered) query — or create a fresh destination row copying the
source's attributes — then record the `StockTransfer` row and the
`transferred_out` / `transferred_in` audit entries, and commit.
`transferSrcRow` is the decremented source row it writes
(`stock.quantity -= qty`, `total_value` recomputed). -/
def transferSrcRow (stock : StockRow) (qty : Int) : StockRow :=
  { stock with
      quantity := stock.quantity - qty
      total_value := (stock.quantity - qty) * pyOrZeroQ stock.unit_price }

/-- The merged destination row written by `transfer_stock`
(`dest_stock.quantity += qty`, `total_value` recomputed from the
destination's own `unit_price`). -/
def transferMergeRow (d : StockRow) (qty : Int) : StockRow :=
  { d with
      quantity := d.quantity + qty
      total_value := (d.quantity + qty) * pyOrZeroQ d.unit_price }

/-- The destination row freshly created by `transfer_stock` when the
merge lookup found nothing: attributes copied from the source,
quantity equal to the transferred amount. -/
def transferNewRow (db : DB) (campus : Campus) (stock : StockRow) (toCampus : Campus)
    (qty : Int) (user : String) : StockRow :=
  { id := freshStockId db
    item_name := stock.item_name
    category := stock.category
    quantity := qty
    unit := stock.unit
    unit_price := stock.unit_price
    total_value := qty * pyOrZeroQ stock.unit_price
    condition := stock.condition
    status := "Active"
    low_stock_threshold := stock.low_stock_threshold
    remarks := some ("Transferred from " ++ campus.name)
    campus_id := toCampus.id
    asset_tag := none
    assigned_to := none
    added_by := user }

def transferApply (db : DB) (campus : Campus) (stock : StockRow) (toCampus : Campus)
    (qty : Int) (rmk : Option String) (user : String) : DB :=
  let src : StockRow := transferSrcRow stock qty
  let stocks1 := updateStockRow db.stocks stock.id src
  let destMatch := (stocks1.filter (transferMatch stock toCampus.id)).head?
  let dest : StockRow := match destMatch with
    | some d => transferMergeRow d qty
    | none => transferNewRow db campus stock toCampus qty user
  let stocks2 := match destMatch with
    | some d => updateStockRow stocks1 d.id dest
    | none => stocks1 ++ [dest]
  let transfer : TransferRow :=
    { stock_id := some stock.id
      item_name := stock.item_name
      quantity_transferred := qty
      from_campus_id := campus.id
      to_campus_id := toCampus.id
      transferred_by := user
      remarks := rmk }
  let outEntry := log_stock_action db.campuses (some src) "transferred_out" user
    (some "quantity") (some (.intV (src.quantity + qty))) (some (.intV src.quantity))
  let inEntries :=
    if dest.id ≠ 0 then
      [log_stock_action db.campuses (some dest) "transferred_in" user
        (some "quantity") (some (.intV (dest.quantity - qty))) (some (.intV dest.quantity))]
    else []
  { db with
      stocks := stocks2
      transfers := db.transfers ++ [transfer]
      history := db.history ++ [outEntry] ++ inEntries }

/-- `transfer_stock` (`routes/stock.py`): resolve the campus, validate
the form, re-fetch the stock and destination campus, reject a stock
from another campus, reject a quantity exceeding the source's, and
otherwise run the transfer.  Every rejection path flashes a message and
leaves the database unchanged. -/
def transfer_stock (db : DB) (campus_id : Nat) (form : TransferForm) (user : String) : DB :=
  match getCampus db campus_id with
  | none => db
  | some campus =>
    if transferFormValid db campus_id form then
      match getStock db form.stock_id, getCampus db form.to_campus_id with
      | some stock, some toCampus =>
        if stock.campus_id ≠ campus_id then db
        else if stock.quantity < form.quantity then db
        else transferApply db campus stock toCampus form.quantity form.remarks user
      | some _, none => db
      | none, _ => db
    else db

/-- One spreadsheet data row as `upload_excel` reads it (columns
already normalized): each field is the pandas cell, `na` standing for
a missing column or an empty cell. -/
structure ImportRow where
  item_name : PyCell
  category : PyCell
  quantity : PyCell
  unit : PyCell
  unit_price : PyCell
  condition : PyCell
  statusCell : PyCell
  asset_tag : PyCell
  assigned_to : PyCell
  remarks : PyCell
deriving Repr, DecidableEq

/-- `str(row.get('item_name', '')).strip()`. -/
def rowItemName (r : ImportRow) : String := pyStrip (pyStrCell r.item_name)

/-- `int(row.get('quantity', 0)) if pd.notna(...) else 0`; `none` is
the raised `ValueError`. -/
def rowQuantity (r : ImportRow) : Option Int :=
  if cellNotna r.quantity then pyIntCell r.quantity else some 0

/-- `float(row.get('unit_price', 0)) if pd.notna(...) else 0.0`. -/
def rowUnitPrice (r : ImportRow) : Option ℚ :=
  if cellNotna r.unit_price then pyFloatCell r.unit_price else some 0

/-- The normalized asset tag: stripped, with `''`/`'nan'` mapped to
`None`. -/
def rowAssetTag (r : ImportRow) : Option String :=
  if cellNotna r.asset_tag then
    let t := pyStrip (pyStrCell r.asset_tag)
    if t = "" || t = "nan" then none else some t
  else none

/-- The `assigned_to` resolution of `upload_excel`: a non-empty,
non-`nan` username is looked up case-insensitively; an unknown name
yields a warning but the row is still imported unassigned. -/
def rowAssigned (users : List UserRow) (rn : Nat) (r : ImportRow) :
    Option Nat × List String :=
  let uname := if cellNotna r.assigned_to then pyStrip (pyStrCell r.assigned_to) else ""
  if uname ≠ "" && uname ≠ "nan" then
    match users.find? (fun u => pyLower u.username = pyLower uname) with
    | some u => (some u.id, [])
    | none => (none, [s!"Row {rn}: User {uname} not found, asset imported unassigned."])
  else (none, [])

/-- The `Stock(...)` row constructed by `upload_excel` for an accepted
spreadsheet row (callers supply the parsed quantity/price and the
resolved assignment). -/
def mkImportStock (campus_id : Nat) (user : String) (rowId : Nat) (r : ImportRow)
    (quantity : Int) (unit_price : ℚ) (assigned : Option Nat) : StockRow :=
  { id := rowId
    item_name := rowItemName r
    category := some (if cellNotna r.category then pyStrip (pyStrCell r.category) else "")
    quantity := quantity
    unit := some (if cellNotna r.unit then pyStrip (pyStrCell r.unit) else "pcs")
    unit_price := unit_price
    total_value := quantity * unit_price
    condition := if cellNotna r.condition then pyStrip (pyStrCell r.condition) else "Good"
    status := if cellNotna r.statusCell then pyStrip (pyStrCell r.statusCell) else "Active"
    low_stock_threshold := 10
    remarks := some (if cellNotna r.remarks then pyStrip (pyStrCell r.remarks) else "")
    campus_id := campus_id
    asset_tag := rowAssetTag r
    assigned_to := assigned
    added_by := user }

/-- The running state of one `upload_excel` batch: the stock table as
the (autoflushing) session sees it, the imported counter, the
collected per-row errors, and the id the next flushed row receives. -/
structure ImportState where
  stocks : List StockRow
  imported : Nat
  errors : List String
  nextId : Nat
deriving Repr, DecidableEq

/-- The loop body of `upload_excel` for one spreadsheet row `r` at
Excel row number `rn`: skip on missing `item_name`; a `ValueError`
from the quantity/price parse falls into the per-row `except` and
records the error; a duplicate `asset_tag` (checked against the
table *including* rows pending from earlier in this batch) skips the
row; otherwise the stock row is added. -/
def importRowStep (users : List UserRow) (campus_id : Nat) (user : String)
    (st : ImportState) (rn : Nat) (r : ImportRow) : ImportState :=
  if rowItemName r = "" || rowItemName r = "nan" then
    { st with errors := st.errors ++ [s!"Row {rn}: Missing item_name, skipped."] }
  else
    match rowQuantity r with
    | none =>
        { st with errors := st.errors ++ [s!"Row {rn}: invalid literal for int with base 10"] }
    | some quantity =>
      match rowUnitPrice r with
      | none =>
          { st with errors := st.errors ++ [s!"Row {rn}: could not convert string to float"] }
      | some unit_price =>
        let dup : Bool := match rowAssetTag r with
          | some t => !(st.stocks.filter (fun s => s.asset_tag = some t)).isEmpty
          | none => false
        if dup then
          { st with errors := st.errors ++ [s!"Row {rn}: Asset tag already exists, skipped."] }
        else
          let asg := rowAssigned users rn r
          { stocks := st.stocks ++
              [mkImportStock campus_id user st.nextId r quantity unit_price asg.1]
            imported := st.imported + 1
            errors := st.errors ++ asg.2
            nextId := st.nextId + 1 }

/-- `upload_excel` (`routes/excel.py`): resolve the target campus,
then fold the loop body over the data rows (Excel row numbers start at
2 below the header) and commit once; returns the new database together
with the imported count and the per-row errors.  A missing campus
redirects with no change. -/
def upload_excel (db : DB) (campus_id : Nat) (rows : List ImportRow) (user : String) :
    DB × Nat × List String :=
  match getCampus db campus_id with
  | none => (db, 0, [])
  | some _ =>
    let final := (rows.enum).foldl
      (fun st p => importRowStep db.users campus_id user st (p.1 + 2) p.2)
      (ImportState.mk db.stocks 0 [] (freshStockId db))
    ({ db with stocks := final.stocks }, final.imported, final.errors)

/-- Stable insertion into a sorted list (used to model SQL
`ORDER BY`). -/
def insertLe {α : Type} (le : α → α → Bool) (a : α) : List α → List α
  | [] => [a]
  | b :: t => if le a b then a :: b :: t else b :: insertLe le a t

/-- Stable sort by a total preorder (the model of SQL `ORDER BY` on
one key: ties keep the engine order). -/
def insertionSort {α : Type} (le : α → α → Bool) (l : List α) : List α :=
  l.foldr (insertLe le) []

/-- The dashboard's global low-stock query (`routes/stock.py`):
`filter(quantity <= low_stock_threshold).order_by(quantity.asc()).limit(20)`.
`ORDER BY` on the single `quantity` key is modelled by a stable sort of
the engine order. -/
def dashboardLowStock (db : DB) : List StockRow :=
  (insertionSort (fun a b => a.quantity ≤ b.quantity)
    (db.stocks.filter (fun s => s.quantity ≤ s.low_stock_threshold))).take 20

/-- A mutating request of the stock blueprint, as dispatched in the
claims about audit and `total_value` invariants. -/
inductive Mutation where
  | create (form : StockForm) (user : String)
  | edit (stock_id : Nat) (form : StockForm) (user : String)
  | deleteRow (stock_id : Nat) (user : String)
  | transfer (campus_id : Nat) (form : TransferForm) (user : String)
deriving Repr, DecidableEq

/-- Dispatch a mutation to its route embedding. -/
def applyMutation (db : DB) : Mutation → DB
  | .create f u => add_stock db f u
  | .edit i f u => edit_stock db i f u
  | .deleteRow i u => delete_stock db i u
  | .transfer c f u => transfer_stock db c f u

/-- The success condition of each mutating route: exactly the guards
under which the route reaches its `commit` with changes (rather than
flashing an error / re-rendering). -/
def mutationOk (db : DB) : Mutation → Bool
  | .create f _ => stockFormValid db f
  | .edit i f _ => (getStock db i).isSome && stockFormValid db f
  | .deleteRow i _ => (getStock db i).isSome
  | .transfer c f _ =>
      (getCampus db c).isSome && transferFormValid db c f &&
      (match getStock db f.stock_id, getCampus db f.to_campus_id with
       | some s, some _ => s.campus_id = c && decide (f.quantity ≤ s.quantity)
       | _, _ => false)

/-! ## Helper lemmas about the table model -/

theorem find?_updateStockRow_self (l : List StockRow) (i : Nat) (r : StockRow)
    (hr : r.id = i) :
    (updateStockRow l i r).find? (fun s => s.id = i) =
      (l.find? (fun s => s.id = i)).map (fun _ => r) := by
  induction l with
  | nil => rfl
  | cons a t ih =>
    by_cases h : a.id = i
    · simp only [updateStockRow, List.map_cons, if_pos h]
      simp [List.find?, h, hr]
    · simp only [updateStockRow, List.map_cons, if_neg h]
      simp only [List.find?, h, decide_eq_false_iff_not, not_false_eq_true, decide_eq_true_eq]
      simpa [updateStockRow, h] using ih

theorem find?_updateStockRow_ne (l : List StockRow) (i j : Nat) (r : StockRow)
    (hr : r.id = i) (h : j ≠ i) :
    (updateStockRow l i r).find? (fun s => s.id = j) = l.find? (fun s => s.id = j) := by
  induction l with
  | nil => rfl
  | cons a t ih =>
    by_cases ha : a.id = i
    · have haj : ¬ a.id = j := by omega
      have hrj : ¬ r.id = j := by omega
      simp only [updateStockRow, List.map_cons, if_pos ha]
      simp only [List.find?, hrj, haj, decide_eq_false_iff_not, not_false_eq_true]
      simpa [updateStockRow] using ih
    · simp only [updateStockRow, List.map_cons, if_neg ha]
      by_cases haj : a.id = j
      · simp [List.find?, haj]
      · simp only [List.find?, haj, decide_eq_false_iff_not, not_false_eq_true]
        simpa [updateStockRow] using ih

theorem updateStockRow_map_id (l : List StockRow) (i : Nat) (r : StockRow)
    (hr : r.id = i) :
    (updateStockRow l i r).map (fun s => s.id) = l.map (fun s => s.id) := by
  induction l with
  | nil => rfl
  | cons a t ih =>
    simp only [updateStockRow, List.map_cons] at ih ⊢
    by_cases h : a.id = i
    · simp [h, hr, ih]
    · simp [h, ih]

theorem mem_updateStockRow (l : List StockRow) (i : Nat) (r s : StockRow)
    (hs : s ∈ updateStockRow l i r) : s = r ∨ s ∈ l := by
  unfold updateStockRow at hs
  rcases List.mem_map.mp hs with ⟨a, ha, he⟩
  by_cases h : a.id = i
  · left; rw [← he, if_pos h]
  · right; rw [← he, if_neg h]; exact ha

theorem updateStockRow_mem_self (l : List StockRow) (i : Nat) (r a : StockRow)
    (ha : a ∈ l) (hai : a.id = i) : r ∈ updateStockRow l i r :=
  List.mem_map.mpr ⟨a, ha, by simp [hai]⟩

theorem self_le_foldl_max : ∀ (l : List Nat) (acc : Nat), acc ≤ l.foldl max acc := by
  intro l
  induction l with
  | nil => intro acc; simp
  | cons a t ih =>
    intro acc
    exact le_trans (le_max_left acc a) (ih (max acc a))

theorem mem_le_foldl_max : ∀ (l : List Nat) (acc x : Nat), x ∈ l → x ≤ l.foldl max acc := by
  intro l
  induction l with
  | nil => intro acc x h; cases h
  | cons a t ih =>
    intro acc x h
    simp only [List.foldl]
    rcases List.mem_cons.mp h with h1 | h2
    · subst h1; exact le_trans (le_max_right acc x) (self_le_foldl_max t (max acc x))
    · exact ih (max acc a) x h2

/-- Every existing stock row's id is strictly below the next flush id. -/
theorem freshStockId_not_mem (db : DB) (s : StockRow) (hs : s ∈ db.stocks) :
    s.id ≠ freshStockId db := by
  have h : s.id ≤ (db.stocks.map (fun s => s.id)).foldl max 0 :=
    mem_le_foldl_max _ 0 s.id (List.mem_map.mpr ⟨s, hs, rfl⟩)
  unfold freshStockId
  omega

theorem getStock_mem (db : DB) (i : Nat) (s : StockRow) (h : getStock db i = some s) :
    s ∈ db.stocks ∧ s.id = i := by
  refine ⟨List.mem_of_find?_eq_some h, ?_⟩
  have := List.find?_some h
  simpa using this

theorem head?_mem {α : Type _} {l : List α} {a : α} (h : l.head? = some a) : a ∈ l := by
  cases l with
  | nil => cases h
  | cons b t =>
    simp only [List.head?_cons, Option.some.injEq] at h
    subst h
    exact List.mem_cons_self b t

/-- Replacing the row with id `i` leaves a filter untouched when both
the old and the new row fail the filter. -/
theorem filter_updateStockRow_eq (l : List StockRow) (i : Nat) (r : StockRow)
    (p : StockRow → Bool) (hp : ∀ a ∈ l, a.id = i → p a = false) (hr : p r = false) :
    (updateStockRow l i r).filter p = l.filter p := by
  induction l with
  | nil => rfl
  | cons a t ih =>
    have iht := ih (fun x hx hxi => hp x (List.mem_cons_of_mem a hx) hxi)
    by_cases h : a.id = i
    · have hpa := hp a (List.mem_cons_self a t) h
      simp only [updateStockRow, List.map_cons, if_pos h, List.filter_cons, hr, hpa]
      simpa [updateStockRow] using iht
    · simp only [updateStockRow, List.map_cons, if_neg h, List.filter_cons]
      cases hpa : p a
      · simpa [updateStockRow, hpa] using iht
      · simp only [hpa]
        simpa [updateStockRow, hpa] using iht

theorem getCampus_id (db : DB) (i : Nat) (c : Campus) (h : getCampus db i = some c) :
    c.id = i := by
  have := List.find?_some h
  simpa using this

/-! ## Example database used by the concrete witnesses -/

/-- Witness campus 1. -/
def exCampusA : Campus := ⟨1, "Campus A", "A", none⟩

/-- Witness campus 2. -/
def exCampusB : Campus := ⟨2, "Campus B", "B", none⟩

/-- Witness stock row: 10 laptops at 500 each at campus 1. -/
def exLaptop : StockRow :=
  ⟨1, "Laptop", some "Laptop", 10, some "pcs", 500, 5000, "Good", "Active", 10, none, 1,
    none, none, "u"⟩

/-- Witness database: two campuses, one stock row. -/
def exDB : DB := ⟨[exCampusA, exCampusB], [], [exLaptop], [], []⟩

/-- **C2.** A transfer request whose quantity exceeds the source
stock's current quantity is rejected: the operation returns the
database unchanged, so no `Stock`, `StockTransfer` or `StockHistory`
row is created or altered. -/
theorem transfer_overdraw_rejected (db : DB) (campus_id : Nat) (form : TransferForm)
    (user : String) (stock : StockRow)
    (hs : getStock db form.stock_id = some stock)
    (hq : stock.quantity < form.quantity) :
    transfer_stock db campus_id form user = db := by
  unfold transfer_stock
  cases hcamp : getCampus db campus_id with
  | none => rfl
  | some campus =>
    by_cases hv : transferFormValid db campus_id form = true
    · simp only [hv, if_true, hs]
      cases ht : getCampus db form.to_campus_id with
      | none => rfl
      | some tc =>
        by_cases hcid : stock.campus_id ≠ campus_id
        · simp only [if_pos hcid]
        · simp only [if_neg hcid, if_pos hq]
    · simp only [Bool.not_eq_true] at hv
      simp only [hv, Bool.false_eq_true, if_false]

/-- Witness for C2: transferring 11 of the 10 available laptops leaves
the database unchanged. -/
theorem transfer_overdraw_rejected_witness :
    transfer_stock exDB 1 (TransferForm.mk 1 2 11 none) "u" = exDB :=
  transfer_overdraw_rejected exDB 1 (TransferForm.mk 1 2 11 none) "u" exLaptop
    (by decide) (by decide)

/-- Under unique row ids, the row found for an id is determined. -/
theorem stock_id_inj (db : DB) (hnd : (db.stocks.map (fun s => s.id)).Nodup)
    (a b : StockRow) (ha : a ∈ db.stocks) (hb : b ∈ db.stocks) (h : a.id = b.id) :
    a = b :=
  List.inj_on_of_nodup_map hnd ha hb h

/-- An id contained in the destination-campus choice list differs from
the source campus id. -/
theorem contains_other_campus (l : List Campus) (cid x : Nat)
    (h : ((l.filter (fun c => c.id ≠ cid)).map (fun c => c.id)).contains x = true) :
    x ≠ cid := by
  simp only [List.contains_eq_any_beq, List.any_eq_true, List.mem_map, List.mem_filter,
    decide_eq_true_eq, beq_iff_eq] at h
  obtain ⟨y, ⟨c, ⟨hc, hne⟩, hcy⟩, hxy⟩ := h
  omega

/-- **C1.** For every transfer that passes its preconditions (source
stock exists at the claimed campus, destination campus exists and —
per the form's choice lists — differs, and the quantity is at most the
source's): the source row's quantity after the transfer plus the
transferred quantity equals its quantity before; a matched destination
row ends with its prior quantity plus the transferred quantity; and
when no destination row matched, a new row is created (starting from
quantity 0) holding exactly the transferred amount at the destination
campus. -/
theorem transfer_quantity_conservation (db : DB) (campus_id : Nat) (form : TransferForm)
    (user : String) (campus toCampus : Campus) (stock : StockRow)
    (hnd : (db.stocks.map (fun s => s.id)).Nodup)
    (hcamp : getCampus db campus_id = some campus)
    (hv : transferFormValid db campus_id form = true)
    (hs : getStock db form.stock_id = some stock)
    (hsc : stock.campus_id = campus_id)
    (ht : getCampus db form.to_campus_id = some toCampus)
    (hq : form.quantity ≤ stock.quantity) :
    (∃ s', getStock (transfer_stock db campus_id form user) stock.id = some s' ∧
        s'.quantity + form.quantity = stock.quantity) ∧
    (∀ d, (db.stocks.filter (transferMatch stock toCampus.id)).head? = some d →
        ∃ d', getStock (transfer_stock db campus_id form user) d.id = some d' ∧
          d'.quantity = d.quantity + form.quantity) ∧
    ((db.stocks.filter (transferMatch stock toCampus.id)).head? = none →
        ∃ r, (transfer_stock db campus_id form user).stocks.getLast? = some r ∧
          r.quantity = 0 + form.quantity ∧ r.campus_id = toCampus.id ∧
          getStock db r.id = none) := by
  have htc : toCampus.id ≠ campus_id := by
    have h3 := getCampus_id db form.to_campus_id toCampus ht
    unfold transferFormValid at hv
    simp only [Bool.and_eq_true] at hv
    have := contains_other_campus db.campuses campus_id form.to_campus_id hv.1.2
    omega
  have hmem := getStock_mem db form.stock_id stock hs
  have hfind : db.stocks.find? (fun s => s.id = stock.id) = some stock := by
    rw [hmem.2]; exact hs
  have happly : transfer_stock db campus_id form user =
      transferApply db campus stock toCampus form.quantity form.remarks user := by
    unfold transfer_stock
    rw [hcamp]
    simp only [hv, if_true, hs, ht]
    rw [if_neg (by omega : ¬ stock.campus_id ≠ campus_id),
        if_neg (by omega : ¬ stock.quantity < form.quantity)]
  have hfilter : (updateStockRow db.stocks stock.id
        (transferSrcRow stock form.quantity)).filter (transferMatch stock toCampus.id) =
      db.stocks.filter (transferMatch stock toCampus.id) := by
    apply filter_updateStockRow_eq
    · intro a ha hai
      have : a = stock := stock_id_inj db hnd a stock ha hmem.1 (by rw [hai, hmem.2])
      subst this
      unfold transferMatch
      simp only [Bool.and_eq_false_iff]
      left; right
      simp only [decide_eq_false_iff_not]
      omega
    · unfold transferSrcRow transferMatch
      simp only [Bool.and_eq_false_iff]
      left; right
      simp only [decide_eq_false_iff_not]
      omega
  rw [happly]
  unfold transferApply
  simp only [hfilter]
  cases hdm : (db.stocks.filter (transferMatch stock toCampus.id)).head? with
  | some d =>
    dsimp only
    have hdmem : d ∈ db.stocks := (List.mem_filter.mp (head?_mem hdm)).1
    have hdmatch : transferMatch stock toCampus.id d = true :=
      (List.mem_filter.mp (head?_mem hdm)).2
    have hdcampus : d.campus_id = toCampus.id := by
      unfold transferMatch at hdmatch
      simp only [Bool.and_eq_true, decide_eq_true_eq] at hdmatch
      exact hdmatch.1.2
    have hdne : d.id ≠ stock.id := by
      intro hcontra
      have : d = stock := stock_id_inj db hnd d stock hdmem hmem.1 hcontra
      subst this
      omega
    have hd0 : ∃ x, (updateStockRow db.stocks stock.id
        (transferSrcRow stock form.quantity)).find? (fun s => s.id = d.id) = some x := by
      rw [find?_updateStockRow_ne db.stocks stock.id d.id
        (transferSrcRow stock form.quantity) rfl hdne]
      rw [← Option.isSome_iff_exists, List.find?_isSome]
      exact ⟨d, hdmem, by simp⟩
    obtain ⟨x, hx⟩ := hd0
    refine ⟨?_, ?_, ?_⟩
    · refine ⟨transferSrcRow stock form.quantity, ?_,
        by unfold transferSrcRow; dsimp only; omega⟩
      unfold getStock
      dsimp only
      rw [find?_updateStockRow_ne _ d.id stock.id (transferMergeRow d form.quantity)
          rfl (Ne.symm hdne),
        find?_updateStockRow_self db.stocks stock.id (transferSrcRow stock form.quantity) rfl,
        hfind]
      rfl
    · intro d0 hd0eq
      cases hd0eq
      refine ⟨transferMergeRow d form.quantity, ?_,
        by unfold transferMergeRow; dsimp only⟩
      unfold getStock
      dsimp only
      rw [find?_updateStockRow_self _ d.id (transferMergeRow d form.quantity) rfl, hx]
      rfl
    · intro hnone
      cases hnone
  | none =>
    dsimp only
    refine ⟨?_, ?_, ?_⟩
    · refine ⟨transferSrcRow stock form.quantity, ?_,
        by unfold transferSrcRow; dsimp only; omega⟩
      unfold getStock
      dsimp only
      rw [List.find?_append,
        find?_updateStockRow_self db.stocks stock.id (transferSrcRow stock form.quantity) rfl,
        hfind]
      rfl
    · intro d hd
      cases hd
    · intro _
      refine ⟨transferNewRow db campus stock toCampus form.quantity user,
        List.getLast?_concat _, by unfold transferNewRow; dsimp only; omega, rfl, ?_⟩
      unfold getStock transferNewRow
      dsimp only
      rw [List.find?_eq_none]
      intro a ha
      simp only [decide_eq_true_eq]
      exact fun hcontra => freshStockId_not_mem db a ha hcontra

/-- Witness for C1: transferring 3 of the 10 laptops from campus 1 to
campus 2 (no matching destination row) leaves 7 at the source and
creates a destination row holding 3. -/
theorem transfer_quantity_conservation_witness :
    (∃ s', getStock (transfer_stock exDB 1 (TransferForm.mk 1 2 3 none) "u") 1 = some s' ∧
        s'.quantity + 3 = 10) ∧
    (∀ d, (exDB.stocks.filter (transferMatch exLaptop 2)).head? = some d →
        ∃ d', getStock (transfer_stock exDB 1 (TransferForm.mk 1 2 3 none) "u") d.id = some d' ∧
          d'.quantity = d.quantity + 3) ∧
    ((exDB.stocks.filter (transferMatch exLaptop 2)).head? = none →
        ∃ r, (transfer_stock exDB 1 (TransferForm.mk 1 2 3 none) "u").stocks.getLast? = some r ∧
          r.quantity = 0 + 3 ∧ r.campus_id = 2 ∧ getStock exDB r.id = none) :=
  transfer_quantity_conservation exDB 1 (TransferForm.mk 1 2 3 none) "u" exCampusA exCampusB
    exLaptop (by decide) (by decide) (by decide) (by decide) (by decide) (by decide) (by decide)

/-- Shared reasoning: under the transfer preconditions, when the merge
lookup finds `d`, the row stored under `d.id` afterwards is exactly
`transferMergeRow d qty`. -/
theorem transfer_merge_lookup (db : DB) (campus_id : Nat) (form : TransferForm)
    (user : String) (campus toCampus : Campus) (stock d : StockRow)
    (hnd : (db.stocks.map (fun s => s.id)).Nodup)
    (hcamp : getCampus db campus_id = some campus)
    (hv : transferFormValid db campus_id form = true)
    (hs : getStock db form.stock_id = some stock)
    (hsc : stock.campus_id = campus_id)
    (ht : getCampus db form.to_campus_id = some toCampus)
    (hq : form.quantity ≤ stock.quantity)
    (hdm : (db.stocks.filter (transferMatch stock toCampus.id)).head? = some d) :
    getStock (transfer_stock db campus_id form user) d.id =
      some (transferMergeRow d form.quantity) := by
  have htc : toCampus.id ≠ campus_id := by
    have h3 := getCampus_id db form.to_campus_id toCampus ht
    unfold transferFormValid at hv
    simp only [Bool.and_eq_true] at hv
    have := contains_other_campus db.campuses campus_id form.to_campus_id hv.1.2
    omega
  have hmem := getStock_mem db form.stock_id stock hs
  have happly : transfer_stock db campus_id form user =
      transferApply db campus stock toCampus form.quantity form.remarks user := by
    unfold transfer_stock
    rw [hcamp]
    simp only [hv, if_true, hs, ht]
    rw [if_neg (by omega : ¬ stock.campus_id ≠ campus_id),
        if_neg (by omega : ¬ stock.quantity < form.quantity)]
  have hfilter : (updateStockRow db.stocks stock.id
        (transferSrcRow stock form.quantity)).filter (transferMatch stock toCampus.id) =
      db.stocks.filter (transferMatch stock toCampus.id) := by
    apply filter_updateStockRow_eq
    · intro a ha hai
      have : a = stock := stock_id_inj db hnd a stock ha hmem.1 (by rw [hai, hmem.2])
      subst this
      unfold transferMatch
      simp only [Bool.and_eq_false_iff]
      left; right
      simp only [decide_eq_false_iff_not]
      omega
    · unfold transferSrcRow transferMatch
      simp only [Bool.and_eq_false_iff]
      left; right
      simp only [decide_eq_false_iff_not]
      omega
  have hdmem : d ∈ db.stocks := (List.mem_filter.mp (head?_mem hdm)).1
  have hdcampus : d.campus_id = toCampus.id := by
    have hdmatch : transferMatch stock toCampus.id d = true :=
      (List.mem_filter.mp (head?_mem hdm)).2
    unfold transferMatch at hdmatch
    simp only [Bool.and_eq_true, decide_eq_true_eq] at hdmatch
    exact hdmatch.1.2
  have hdne : d.id ≠ stock.id := by
    intro hcontra
    have : d = stock := stock_id_inj db hnd d stock hdmem hmem.1 hcontra
    subst this
    omega
  have hd0 : ∃ x, (updateStockRow db.stocks stock.id
      (transferSrcRow stock form.quantity)).find? (fun s => s.id = d.id) = some x := by
    rw [find?_updateStockRow_ne db.stocks stock.id d.id
      (transferSrcRow stock form.quantity) rfl hdne]
    rw [← Option.isSome_iff_exists, List.find?_isSome]
    exact ⟨d, hdmem, by simp⟩
  obtain ⟨x, hx⟩ := hd0
  rw [happly]
  unfold transferApply
  simp only [hfilter, hdm]
  unfold getStock
  dsimp only
  rw [find?_updateStockRow_self _ d.id (transferMergeRow d form.quantity) rfl, hx]
  rfl

/-- C10 example: 5 widgets at price 10 at campus 1. -/
def exWidgetSrc : StockRow :=
  ⟨1, "Widget", some "Other", 5, some "pcs", 10, 50, "Good", "Active", 10, none, 1,
    none, none, "u"⟩

/-- C10 example: 1 widget at price 99 at campus 2 (same merge key). -/
def exWidgetDst : StockRow :=
  ⟨2, "Widget", some "Other", 1, some "pcs", 99, 99, "Good", "Active", 10, none, 2,
    none, none, "u"⟩

/-- C10 example database. -/
def exDB10 : DB := ⟨[exCampusA, exCampusB], [], [exWidgetSrc, exWidgetDst], [], []⟩

/-- **C10.** A transfer that merges recomputes the destination
`total_value` from the destination row's own `unit_price`; and since
the source decrement is priced at the source's `unit_price`, total
quantity is conserved across a transfer but summed monetary value need
not be: a concrete valid transfer changes the total-value sum. -/
theorem transfer_dest_price_and_value_change :
    (∀ (db : DB) (campus_id : Nat) (form : TransferForm) (user : String)
        (campus toCampus : Campus) (stock d : StockRow),
        (db.stocks.map (fun s => s.id)).Nodup →
        getCampus db campus_id = some campus →
        transferFormValid db campus_id form = true →
        getStock db form.stock_id = some stock →
        stock.campus_id = campus_id →
        getCampus db form.to_campus_id = some toCampus →
        form.quantity ≤ stock.quantity →
        (db.stocks.filter (transferMatch stock toCampus.id)).head? = some d →
        ∃ d', getStock (transfer_stock db campus_id form user) d.id = some d' ∧
          d'.unit_price = d.unit_price ∧
          d'.total_value = (d.quantity + form.quantity) * d.unit_price) ∧
    (∃ (db : DB) (campus_id : Nat) (form : TransferForm) (user : String),
        mutationOk db (Mutation.transfer campus_id form user) = true ∧
        ((transfer_stock db campus_id form user).stocks.map (fun s => s.quantity)).sum =
          (db.stocks.map (fun s => s.quantity)).sum ∧
        ((transfer_stock db campus_id form user).stocks.map (fun s => s.total_value)).sum ≠
          (db.stocks.map (fun s => s.total_value)).sum) := by
  constructor
  · intro db campus_id form user campus toCampus stock d hnd hcamp hv hs hsc ht hq hdm
    refine ⟨transferMergeRow d form.quantity, ?_, ?_, ?_⟩
    · exact transfer_merge_lookup db campus_id form user campus toCampus stock d
        hnd hcamp hv hs hsc ht hq hdm
    · rfl
    · unfold transferMergeRow
      dsimp only
      rw [pyOrZeroQ_eq]
  · refine ⟨exDB10, 1, TransferForm.mk 1 2 2 none, "u", by decide, ?_, ?_⟩
    · have hres : (transfer_stock exDB10 1 (TransferForm.mk 1 2 2 none) "u").stocks =
          [transferSrcRow exWidgetSrc 2, transferMergeRow exWidgetDst 2] := by rfl
      rw [hres]
      decide
    · have hres : (transfer_stock exDB10 1 (TransferForm.mk 1 2 2 none) "u").stocks =
          [transferSrcRow exWidgetSrc 2, transferMergeRow exWidgetDst 2] := by rfl
      rw [hres]
      simp only [exDB10, exWidgetSrc, exWidgetDst, transferSrcRow, transferMergeRow,
        pyOrZeroQ, List.map_cons, List.map_nil, List.sum_cons, List.sum_nil]
      norm_num

/-- Witness for C10: in the concrete merge transfer of 2 widgets, the
destination row (prior quantity 1, own price 99) ends with
`total_value = (1 + 2) * 99`. -/
theorem transfer_dest_price_and_value_change_witness :
    ∃ d', getStock (transfer_stock exDB10 1 (TransferForm.mk 1 2 2 none) "u") 2 = some d' ∧
      d'.unit_price = 99 ∧ d'.total_value = (1 + 2) * 99 :=
  transfer_dest_price_and_value_change.1 exDB10 1 (TransferForm.mk 1 2 2 none) "u"
    exCampusA exCampusB exWidgetSrc exWidgetDst (by decide) (by decide) (by decide)
    (by decide) (by decide) (by decide) (by decide) (by decide)

/-- Every stock row of a post-transfer state is either an original row
or satisfies the `total_value` invariant. -/
theorem transferApply_stocks_inv (db : DB) (campus : Campus) (stock : StockRow)
    (toCampus : Campus) (qty : Int) (rmk : Option String) (user : String) (s : StockRow)
    (hs : s ∈ (transferApply db campus stock toCampus qty rmk user).stocks) :
    s ∈ db.stocks ∨ s.total_value = s.quantity * s.unit_price := by
  unfold transferApply at hs
  dsimp only at hs
  cases hdm : ((updateStockRow db.stocks stock.id (transferSrcRow stock qty)).filter
      (transferMatch stock toCampus.id)).head? with
  | some d =>
    rw [hdm] at hs
    dsimp only at hs
    rcases mem_updateStockRow _ _ _ _ hs with h1 | h2
    · right
      subst h1
      simp [transferMergeRow, pyOrZeroQ_eq]
    · rcases mem_updateStockRow _ _ _ _ h2 with h3 | h4
      · right
        subst h3
        simp [transferSrcRow, pyOrZeroQ_eq]
      · left; exact h4
  | none =>
    rw [hdm] at hs
    dsimp only at hs
    rcases List.mem_append.mp hs with h1 | h2
    · rcases mem_updateStockRow _ _ _ _ h1 with h3 | h4
      · right
        subst h3
        simp [transferSrcRow, pyOrZeroQ_eq]
      · left; exact h4
    · right
      rcases List.mem_singleton.mp h2 with rfl
      simp [transferNewRow, pyOrZeroQ_eq]

/-- One import step only adds rows satisfying the invariant. -/
theorem importRowStep_stocks_inv (users : List UserRow) (campus_id : Nat) (user : String)
    (st : ImportState) (rn : Nat) (r : ImportRow) (s : StockRow)
    (hs : s ∈ (importRowStep users campus_id user st rn r).stocks) :
    s ∈ st.stocks ∨ s.total_value = s.quantity * s.unit_price := by
  unfold importRowStep at hs
  split at hs
  · left; exact hs
  · cases hq : rowQuantity r with
    | none => rw [hq] at hs; left; exact hs
    | some q =>
      rw [hq] at hs
      cases hp : rowUnitPrice r with
      | none => rw [hp] at hs; left; exact hs
      | some p =>
        rw [hp] at hs
        dsimp only at hs
        split at hs
        · left; exact hs
        · dsimp only at hs
          rcases List.mem_append.mp hs with h1 | h2
          · left; exact h1
          · right
            rcases List.mem_singleton.mp h2 with rfl
            rfl

/-- `add_stock` only adds rows satisfying the invariant. -/
theorem add_stock_stocks_inv (db : DB) (f : StockForm) (u : String) (s : StockRow)
    (hs : s ∈ (add_stock db f u).stocks) :
    s ∈ db.stocks ∨ s.total_value = s.quantity * s.unit_price := by
  unfold add_stock at hs
  split at hs
  · dsimp only at hs
    rcases List.mem_append.mp hs with h1 | h2
    · left; exact h1
    · right
      rcases List.mem_singleton.mp h2 with rfl
      rfl
  · left; exact hs

/-- `edit_stock` only rewrites rows into invariant-satisfying ones. -/
theorem edit_stock_stocks_inv (db : DB) (i : Nat) (f : StockForm) (u : String) (s : StockRow)
    (hs : s ∈ (edit_stock db i f u).stocks) :
    s ∈ db.stocks ∨ s.total_value = s.quantity * s.unit_price := by
  unfold edit_stock at hs
  cases hgs : getStock db i with
  | none => rw [hgs] at hs; left; exact hs
  | some stock =>
    rw [hgs] at hs
    dsimp only at hs
    split at hs
    · dsimp only at hs
      rcases mem_updateStockRow _ _ _ _ hs with h1 | h2
      · right
        subst h1
        rfl
      · left; exact h2
    · left; exact hs

/-- `transfer_stock` only rewrites rows into invariant-satisfying
ones. -/
theorem transfer_stock_stocks_inv (db : DB) (c : Nat) (f : TransferForm) (u : String)
    (s : StockRow) (hs : s ∈ (transfer_stock db c f u).stocks) :
    s ∈ db.stocks ∨ s.total_value = s.quantity * s.unit_price := by
  unfold transfer_stock at hs
  cases hgc : getCampus db c with
  | none => rw [hgc] at hs; left; exact hs
  | some campus =>
    rw [hgc] at hs
    dsimp only at hs
    split at hs
    · cases hgs : getStock db f.stock_id with
      | none => rw [hgs] at hs; left; exact hs
      | some stock =>
        rw [hgs] at hs
        cases hgt : getCampus db f.to_campus_id with
        | none => rw [hgt] at hs; left; exact hs
        | some tc =>
          rw [hgt] at hs
          dsimp only at hs
          split at hs
          · left; exact hs
          · split at hs
            · left; exact hs
            · exact transferApply_stocks_inv _ _ _ _ _ _ _ _ hs
    · left; exact hs

/-- **C3.** After every mutating operation (stock create, stock
update, transfer — source row, merged or created destination row —
and spreadsheet import), every affected stock row of the resulting
state satisfies `total_value = quantity * unit_price`: each row is
either carried over unchanged from the prior state or satisfies the
invariant. -/
theorem total_value_invariant :
    (∀ (db : DB) (m : Mutation), ∀ s ∈ (applyMutation db m).stocks,
        s ∈ db.stocks ∨ s.total_value = s.quantity * s.unit_price) ∧
    (∀ (db : DB) (campus_id : Nat) (rows : List ImportRow) (user : String),
        ∀ s ∈ (upload_excel db campus_id rows user).1.stocks,
        s ∈ db.stocks ∨ s.total_value = s.quantity * s.unit_price) := by
  constructor
  · intro db m s hs
    cases m with
    | create f u => exact add_stock_stocks_inv db f u s hs
    | edit i f u => exact edit_stock_stocks_inv db i f u s hs
    | deleteRow i u =>
      unfold applyMutation delete_stock at hs
      dsimp only at hs
      cases hgs : getStock db i with
      | none => rw [hgs] at hs; left; exact hs
      | some stock =>
        rw [hgs] at hs
        dsimp only at hs
        left
        exact (List.mem_filter.mp hs).1
    | transfer c f u => exact transfer_stock_stocks_inv db c f u s hs
  · intro db campus_id rows user s hs
    unfold upload_excel at hs
    split at hs
    · left; exact hs
    · dsimp only at hs
      -- fold invariant over the rows
      suffices h : ∀ (l : List (Nat × ImportRow)) (st : ImportState),
          (∀ x ∈ st.stocks, x ∈ db.stocks ∨ x.total_value = x.quantity * x.unit_price) →
          ∀ x ∈ (l.foldl (fun st p => importRowStep db.users campus_id user st (p.1 + 2) p.2)
            st).stocks, x ∈ db.stocks ∨ x.total_value = x.quantity * x.unit_price by
        exact h rows.enum (ImportState.mk db.stocks 0 [] (freshStockId db))
          (fun x hx => Or.inl hx) s hs
      intro l
      induction l with
      | nil => intro st hst x hx; exact hst x hx
      | cons p t ih =>
        intro st hst x hx
        refine ih (importRowStep db.users campus_id user st (p.1 + 2) p.2) ?_ x hx
        intro y hy
        rcases importRowStep_stocks_inv db.users campus_id user st (p.1 + 2) p.2 y hy with
          h1 | h2
        · exact hst y h1
        · right; exact h2

/-- Witness for C3: in the result of the §8 scenario transfer, the
destination row (not a prior row) satisfies the invariant. -/
theorem total_value_invariant_witness :
    ∀ s ∈ (applyMutation exDB (Mutation.transfer 1 (TransferForm.mk 1 2 3 none) "u")).stocks,
      s ∈ exDB.stocks ∨ s.total_value = s.quantity * s.unit_price :=
  fun s hs => total_value_invariant.1 exDB (Mutation.transfer 1 (TransferForm.mk 1 2 3 none) "u") s hs

/-- A transfer whose success guards all hold runs `transferApply`. -/
theorem transfer_ok_apply (db : DB) (c : Nat) (f : TransferForm) (u : String)
    (hok : mutationOk db (Mutation.transfer c f u) = true) :
    ∃ campus stock tc, getCampus db c = some campus ∧ getStock db f.stock_id = some stock ∧
      getCampus db f.to_campus_id = some tc ∧ stock.campus_id = c ∧
      f.quantity ≤ stock.quantity ∧ transferFormValid db c f = true ∧
      transfer_stock db c f u = transferApply db campus stock tc f.quantity f.remarks u := by
  simp only [mutationOk, Bool.and_eq_true] at hok
  obtain ⟨⟨hc1, hv⟩, hmatch⟩ := hok
  obtain ⟨campus, hcampus⟩ := Option.isSome_iff_exists.mp hc1
  cases hgs : getStock db f.stock_id with
  | none => rw [hgs] at hmatch; simp at hmatch
  | some stock =>
    cases hgc2 : getCampus db f.to_campus_id with
    | none => rw [hgs, hgc2] at hmatch; simp at hmatch
    | some tc =>
      rw [hgs, hgc2] at hmatch
      simp only [Bool.and_eq_true, decide_eq_true_eq] at hmatch
      obtain ⟨hcampid, hqle⟩ := hmatch
      refine ⟨campus, stock, tc, hcampus, rfl, rfl, hcampid, hqle, hv, ?_⟩
      unfold transfer_stock
      rw [hcampus]
      simp only [hv, if_true, hgs, hgc2]
      rw [if_neg (by omega : ¬ stock.campus_id ≠ c),
          if_neg (by omega : ¬ stock.quantity < f.quantity)]

/-- **C4.** Every successful create, update, delete or transfer
appends at least one new `StockHistory` row (the log is append-only:
the prior history is a strict prefix of the new one); and the entry
appended by a delete snapshots the row's `item_name` and its campus's
name as they were immediately before removal. -/
theorem mutation_appends_history (db : DB) (m : Mutation) (hok : mutationOk db m = true) :
    db.history <+: (applyMutation db m).history ∧
    db.history.length < (applyMutation db m).history.length ∧
    (∀ i u row, m = Mutation.deleteRow i u → getStock db i = some row →
      (applyMutation db m).history = db.history ++
        [HistoryEntry.mk (some row.id) row.item_name
          ((getCampus db row.campus_id).map (fun c => c.name)) "deleted" none none none u]) := by
  cases m with
  | create f u =>
    simp only [mutationOk] at hok
    have hh : (applyMutation db (Mutation.create f u)).history = db.history ++
        [log_stock_action db.campuses (some (StockRow.mk (freshStockId db) f.item_name
          (some f.category) (pyOrZeroOptI f.quantity) f.unit (pyOrZeroOptQ f.unit_price)
          (pyOrZeroOptI f.quantity * pyOrZeroOptQ f.unit_price) f.condition "Active"
          (match f.low_stock_threshold with | some t => t | none => 10) f.remarks
          f.campus_id none none u)) "created" u none none none] := by
      show (add_stock db f u).history = _
      unfold add_stock
      rw [if_pos hok]
    refine ⟨?_, ?_, ?_⟩
    · rw [hh]; exact List.prefix_append _ _
    · rw [hh]; simp
    · intro i u' row hm; cases hm
  | edit i f u =>
    simp only [mutationOk, Bool.and_eq_true] at hok
    obtain ⟨hsome, hv⟩ := hok
    obtain ⟨stock, hgs⟩ := Option.isSome_iff_exists.mp hsome
    have hh : (applyMutation db (Mutation.edit i f u)).history = db.history ++
        (if (editChanges db stock f).isEmpty then
          [log_stock_action db.campuses (some (applyStockForm stock f)) "updated" u
            none none none]
        else (editChanges db stock f).map (fun c =>
          log_stock_action db.campuses (some (applyStockForm stock f)) "updated" u
            (some c.1) c.2.1 c.2.2)) := by
      show (edit_stock db i f u).history = _
      unfold edit_stock
      rw [hgs]
      dsimp only
      rw [if_pos hv]
    refine ⟨?_, ?_, ?_⟩
    · rw [hh]; exact List.prefix_append _ _
    · rw [hh]
      simp only [List.length_append]
      split
      · simp
      · rename_i hch
        simp only [Bool.not_eq_true] at hch
        have hne := List.isEmpty_eq_false.mp hch
        have : 0 < (editChanges db stock f).length := List.length_pos.mpr hne
        simp only [List.length_map]
        omega
    · intro i' u' row hm; cases hm
  | deleteRow i u =>
    simp only [mutationOk] at hok
    obtain ⟨stock, hgs⟩ := Option.isSome_iff_exists.mp hok
    have hh : (applyMutation db (Mutation.deleteRow i u)).history = db.history ++
        [HistoryEntry.mk (some stock.id) stock.item_name
          ((getCampus db stock.campus_id).map (fun c => c.name)) "deleted" none none none u] := by
      show (delete_stock db i u).history = _
      unfold delete_stock
      rw [hgs]
      rfl
    refine ⟨?_, ?_, ?_⟩
    · rw [hh]; exact List.prefix_append _ _
    · rw [hh]; simp
    · intro i' u' row hm hrow
      injection hm with h1 h2
      subst h1; subst h2
      rw [hgs] at hrow
      injection hrow with h3
      subst h3
      exact hh
  | transfer c f u =>
    obtain ⟨campus, stock, tc, hcampus, hgs, hgc2, hcampid, hqle, hv, happly⟩ :=
      transfer_ok_apply db c f u hok
    have hh : (applyMutation db (Mutation.transfer c f u)).history =
        db.history ++ [log_stock_action db.campuses (some (transferSrcRow stock f.quantity))
          "transferred_out" u (some "quantity")
          (some (PyVal.intV ((transferSrcRow stock f.quantity).quantity + f.quantity)))
          (some (PyVal.intV (transferSrcRow stock f.quantity).quantity))] ++
        (let destMatch := ((updateStockRow db.stocks stock.id
            (transferSrcRow stock f.quantity)).filter (transferMatch stock tc.id)).head?
         let dest : StockRow := match destMatch with
           | some d => transferMergeRow d f.quantity
           | none => transferNewRow db campus stock tc f.quantity u
         if dest.id ≠ 0 then
           [log_stock_action db.campuses (some dest) "transferred_in" u (some "quantity")
             (some (PyVal.intV (dest.quantity - f.quantity)))
             (some (PyVal.intV dest.quantity))]
         else []) := by
      show (transfer_stock db c f u).history = _
      rw [happly]
      rfl
    refine ⟨?_, ?_, ?_⟩
    · rw [hh, List.append_assoc]
      exact List.prefix_append _ _
    · rw [hh]
      simp only [List.length_append, List.length_cons, List.length_nil]
      omega
    · intro i' u' row hm; cases hm

/-- Witness for C4: deleting the laptop row appends exactly the
snapshot audit entry. -/
theorem mutation_appends_history_witness :
    exDB.history <+: (applyMutation exDB (Mutation.deleteRow 1 "u")).history ∧
    exDB.history.length < (applyMutation exDB (Mutation.deleteRow 1 "u")).history.length ∧
    (∀ i u row, Mutation.deleteRow 1 "u" = Mutation.deleteRow i u →
      getStock exDB i = some row →
      (applyMutation exDB (Mutation.deleteRow 1 "u")).history = exDB.history ++
        [HistoryEntry.mk (some row.id) row.item_name
          ((getCampus exDB row.campus_id).map (fun c => c.name)) "deleted" none none none u]) :=
  mutation_appends_history exDB (Mutation.deleteRow 1 "u") (by decide)

/-- Spec-side description of the update audit (C9), written from the
spec's words: diff each tracked field — `item_name`, `category`,
`quantity`, `unit_price`, `condition`, `campus` — of the *prior* row
against the incoming form value (numeric form fields read through
`or 0`; a campus change is reported by campus names); one
`(field, old, new)` triple per differing field. -/
def specEditDiffs (db : DB) (old : StockRow) (form : StockForm) :
    List (Option String × Option PyVal × Option PyVal) :=
  (if old.item_name ≠ form.item_name then
    [(some "item_name", some (PyVal.strV old.item_name), some (PyVal.strV form.item_name))]
   else []) ++
  (if old.category ≠ some form.category then
    [(some "category", old.category.map PyVal.strV, some (PyVal.strV form.category))]
   else []) ++
  (if old.quantity ≠ pyOrZeroOptI form.quantity then
    [(some "quantity", some (PyVal.intV old.quantity),
      some (PyVal.intV (pyOrZeroOptI form.quantity)))]
   else []) ++
  (if old.unit_price ≠ pyOrZeroOptQ form.unit_price then
    [(some "unit_price", some (PyVal.ratV old.unit_price),
      some (PyVal.ratV (pyOrZeroOptQ form.unit_price)))]
   else []) ++
  (if old.condition ≠ form.condition then
    [(some "condition", some (PyVal.strV old.condition), some (PyVal.strV form.condition))]
   else []) ++
  (if old.campus_id ≠ form.campus_id then
    [(some "campus",
      some (PyVal.strV (match getCampus db old.campus_id with
        | some c => c.name
        | none => toString old.campus_id)),
      some (PyVal.strV (match getCampus db form.campus_id with
        | some c => c.name
        | none => toString form.campus_id)))]
   else [])

/-- Spec-side update audit (C9): one record per differing tracked
field, or a single generic record `(none, none, none)` when no tracked
field changed. -/
def specEditAuditProj (db : DB) (old : StockRow) (form : StockForm) :
    List (Option String × Option PyVal × Option PyVal) :=
  if specEditDiffs db old form = [] then [(none, none, none)]
  else specEditDiffs db old form

/-- The spec-side diff list is the field/old/new projection of the
change list the code builds. -/
theorem specEditDiffs_eq (db : DB) (old : StockRow) (form : StockForm) :
    specEditDiffs db old form =
      (editChanges db old form).map (fun c => (some c.1, c.2.1, c.2.2)) := by
  unfold specEditDiffs editChanges
  simp only [List.map_append, apply_ite (List.map
    (fun (c : String × Option PyVal × Option PyVal) => (some c.1, c.2.1, c.2.2))),
    List.map_cons, List.map_nil]

/-- **C9.** For every stock update, the tracked fields are diffed
against their prior values before the new values are applied, and the
operation appends exactly one audit entry per differing field carrying
the field name, the old value and the new value — or a single generic
"updated" entry with no field/old/new values when nothing tracked
changed; every appended entry has action `"updated"` and the acting
user. -/
theorem edit_audit_per_field (db : DB) (i : Nat) (form : StockForm) (user : String)
    (stock : StockRow) (hgs : getStock db i = some stock)
    (hv : stockFormValid db form = true) :
    ∃ E, (edit_stock db i form user).history = db.history ++ E ∧
      (∀ e ∈ E, e.action = "updated" ∧ e.changed_by = user) ∧
      E.map (fun e => (e.field_changed, e.old_value, e.new_value)) =
        specEditAuditProj db stock form := by
  refine ⟨if (editChanges db stock form).isEmpty then
      [log_stock_action db.campuses (some (applyStockForm stock form)) "updated" user
        none none none]
    else (editChanges db stock form).map (fun c =>
      log_stock_action db.campuses (some (applyStockForm stock form)) "updated" user
        (some c.1) c.2.1 c.2.2), ?_, ?_, ?_⟩
  · unfold edit_stock
    rw [hgs]
    dsimp only
    rw [if_pos hv]
  · intro e he
    split at he
    · rcases List.mem_singleton.mp he with rfl
      exact ⟨rfl, rfl⟩
    · rcases List.mem_map.mp he with ⟨c, _, rfl⟩
      exact ⟨rfl, rfl⟩
  · unfold specEditAuditProj
    rw [specEditDiffs_eq]
    cases hch : editChanges db stock form with
    | nil => simp [log_stock_action]
    | cons c t =>
      simp only [List.isEmpty_cons, Bool.false_eq_true, if_false, List.map_map,
        List.map_cons]
      rw [if_neg (by simp)]
      rfl

/-- Witness for C9: editing the laptop to quantity 7, price 600 and
campus 2 appends exactly the three per-field entries. -/
theorem edit_audit_per_field_witness :
    ∃ E, (edit_stock exDB 1 (StockForm.mk "Laptop" "Laptop" (some 7) (some "pcs") (some 600)
        "Good" (some 10) 2 none) "u").history = exDB.history ++ E ∧
      (∀ e ∈ E, e.action = "updated" ∧ e.changed_by = "u") ∧
      E.map (fun e => (e.field_changed, e.old_value, e.new_value)) =
        specEditAuditProj exDB exLaptop (StockForm.mk "Laptop" "Laptop" (some 7) (some "pcs")
          (some 600) "Good" (some 10) 2 none) :=
  edit_audit_per_field exDB 1 (StockForm.mk "Laptop" "Laptop" (some 7) (some "pcs") (some 600)
    "Good" (some 10) 2 none) "u" exLaptop (by decide) (by decide)

/-- An import row that passes the item-name check, parses, and has no
duplicate tag is appended as a stock row. -/
theorem importRowStep_success (users : List UserRow) (cid : Nat) (u : String)
    (st : ImportState) (rn : Nat) (r : ImportRow) (q : Int) (p : ℚ)
    (h1 : rowItemName r ≠ "") (h2 : rowItemName r ≠ "nan")
    (hq : rowQuantity r = some q) (hp : rowUnitPrice r = some p)
    (hdup : ∀ t, rowAssetTag r = some t →
      (st.stocks.filter (fun s => s.asset_tag = some t)).isEmpty = true) :
    importRowStep users cid u st rn r =
      ImportState.mk (st.stocks ++ [mkImportStock cid u st.nextId r q p (rowAssigned users rn r).1])
        (st.imported + 1) (st.errors ++ (rowAssigned users rn r).2) (st.nextId + 1) := by
  unfold importRowStep
  rw [if_neg (by simp [h1, h2]), hq, hp]
  dsimp only
  cases ht : rowAssetTag r with
  | none => rfl
  | some t =>
    dsimp only
    rw [if_neg (by simp [hdup t ht])]

/-- An import row whose (stripped, non-empty) asset tag already occurs
in the visible stock table is skipped with a per-row error. -/
theorem importRowStep_dup (users : List UserRow) (cid : Nat) (u : String)
    (st : ImportState) (rn : Nat) (r : ImportRow) (q : Int) (p : ℚ) (t : String)
    (h1 : rowItemName r ≠ "") (h2 : rowItemName r ≠ "nan")
    (hq : rowQuantity r = some q) (hp : rowUnitPrice r = some p)
    (ht : rowAssetTag r = some t)
    (hdup : (st.stocks.filter (fun s => s.asset_tag = some t)).isEmpty = false) :
    importRowStep users cid u st rn r =
      { st with errors := st.errors ++ [s!"Row {rn}: Asset tag already exists, skipped."] } := by
  unfold importRowStep
  rw [if_neg (by simp [h1, h2]), hq, hp]
  dsimp only
  rw [ht]
  dsimp only
  rw [if_pos (by simp [hdup])]

/-- C6 counterexample row: `item_name` present, `quantity` the
unparseable string "abc". -/
def exRowAbc : ImportRow :=
  ⟨.strC "Widget", .na, .strC "abc", .na, .na, .na, .na, .na, .na, .na⟩

/-- Counterexample to C6 as stated: importing a row whose quantity
field is the string "abc" does **not** create a stock row with
quantity 0 — `int("abc")` raises, the per-row handler records an
error, and the database is returned unchanged with nothing imported. -/
theorem unparseable_quantity_not_imported :
    (upload_excel exDB 1 [exRowAbc] "u").1 = exDB ∧
    (upload_excel exDB 1 [exRowAbc] "u").2.1 = 0 ∧
    (upload_excel exDB 1 [exRowAbc] "u").2.2.length = 1 := by decide

/-- **C6 (amended).** A spreadsheet row with an `item_name` whose
quantity cell is present but cannot be parsed as an integer is
*skipped with a recorded per-row error* (nothing is imported for it);
only a *missing* (NaN) quantity cell defaults to quantity 0, under
which the row — when it also parses a price and carries no duplicate
tag — is imported with quantity 0. -/
theorem unparseable_quantity_row_skipped :
    (∀ (users : List UserRow) (cid : Nat) (u : String) (st : ImportState) (rn : Nat)
        (r : ImportRow), rowItemName r ≠ "" → rowItemName r ≠ "nan" →
        cellNotna r.quantity = true → pyIntCell r.quantity = none →
        importRowStep users cid u st rn r =
          { st with errors := st.errors ++
              [s!"Row {rn}: invalid literal for int with base 10"] }) ∧
    (∀ (users : List UserRow) (cid : Nat) (u : String) (st : ImportState) (rn : Nat)
        (r : ImportRow) (p : ℚ), rowItemName r ≠ "" → rowItemName r ≠ "nan" →
        r.quantity = PyCell.na → rowUnitPrice r = some p → rowAssetTag r = none →
        importRowStep users cid u st rn r =
          ImportState.mk
            (st.stocks ++ [mkImportStock cid u st.nextId r 0 p (rowAssigned users rn r).1])
            (st.imported + 1) (st.errors ++ (rowAssigned users rn r).2) (st.nextId + 1)) := by
  constructor
  · intro users cid u st rn r h1 h2 hcn hpi
    have hq : rowQuantity r = none := by
      unfold rowQuantity
      rw [if_pos hcn]
      exact hpi
    unfold importRowStep
    rw [if_neg (by simp [h1, h2]), hq]
  · intro users cid u st rn r p h1 h2 hna hp htag
    have hq : rowQuantity r = some 0 := by
      unfold rowQuantity
      rw [hna]
      rfl
    exact importRowStep_success users cid u st rn r 0 p h1 h2 hq hp
      (fun t ht => by rw [htag] at ht; cases ht)

/-- Witness for the amended C6: the "abc" row is skipped with the
error recorded; the same row with a missing quantity cell imports at
quantity 0. -/
theorem unparseable_quantity_row_skipped_witness :
    importRowStep [] 1 "u" (ImportState.mk [] 0 [] 1) 2 exRowAbc =
      { ImportState.mk [] 0 [] 1 with errors :=
          [s!"Row 2: invalid literal for int with base 10"] } ∧
    importRowStep [] 1 "u" (ImportState.mk [] 0 [] 1) 2
        (ImportRow.mk (.strC "Widget") .na .na .na .na .na .na .na .na .na) =
      ImportState.mk
        [mkImportStock 1 "u" 1 (ImportRow.mk (.strC "Widget") .na .na .na .na .na .na .na .na .na)
          0 0 none] 1 [] 2 :=
  ⟨unparseable_quantity_row_skipped.1 [] 1 "u" (ImportState.mk [] 0 [] 1) 2 exRowAbc
      (by decide) (by decide) (by decide) (by decide),
   unparseable_quantity_row_skipped.2 [] 1 "u" (ImportState.mk [] 0 [] 1) 2
      (ImportRow.mk (.strC "Widget") .na .na .na .na .na .na .na .na .na) 0
      (by decide) (by decide) (by decide) (by decide) (by decide)⟩

/-- **C8.** When one imported file contains two rows carrying the same
non-empty asset tag (and the tag is new to the database, both rows
otherwise importable), the first occurrence is imported and the second
is skipped: exactly the first row's stock is appended, the imported
count is 1, and a per-row error is recorded for the second row.  (The
duplicate check sees the first row because the session autoflushes
pending inserts before querying.) -/
theorem duplicate_asset_tag_second_skipped (db : DB) (campus_id : Nat) (user : String)
    (campus : Campus) (r1 r2 : ImportRow) (t : String) (q1 q2 : Int) (p1 p2 : ℚ)
    (hc : getCampus db campus_id = some campus)
    (h11 : rowItemName r1 ≠ "") (h12 : rowItemName r1 ≠ "nan")
    (h21 : rowItemName r2 ≠ "") (h22 : rowItemName r2 ≠ "nan")
    (hq1 : rowQuantity r1 = some q1) (hp1 : rowUnitPrice r1 = some p1)
    (hq2 : rowQuantity r2 = some q2) (hp2 : rowUnitPrice r2 = some p2)
    (ht1 : rowAssetTag r1 = some t) (ht2 : rowAssetTag r2 = some t)
    (hnew : ∀ s ∈ db.stocks, s.asset_tag ≠ some t) :
    (upload_excel db campus_id [r1, r2] user).1.stocks =
      db.stocks ++ [mkImportStock campus_id user (freshStockId db) r1 q1 p1
        (rowAssigned db.users 2 r1).1] ∧
    (upload_excel db campus_id [r1, r2] user).2.1 = 1 ∧
    s!"Row 3: Asset tag already exists, skipped." ∈
      (upload_excel db campus_id [r1, r2] user).2.2 := by
  have henum : ([r1, r2]).enum = [(0, r1), (1, r2)] := rfl
  have hrow1 := mkImportStock campus_id user (freshStockId db) r1 q1 p1
    (rowAssigned db.users (0 + 2) r1).1
  have hstep1 : importRowStep db.users campus_id user
      (ImportState.mk db.stocks 0 [] (freshStockId db)) (0 + 2) r1 =
      ImportState.mk (db.stocks ++ [mkImportStock campus_id user (freshStockId db) r1 q1 p1
          (rowAssigned db.users (0 + 2) r1).1]) 1
        ([] ++ (rowAssigned db.users (0 + 2) r1).2) (freshStockId db + 1) :=
    importRowStep_success db.users campus_id user _ (0 + 2) r1 q1 p1 h11 h12 hq1 hp1
      (fun t' ht' => by
        rw [ht1] at ht'
        cases ht'
        rw [List.isEmpty_iff, List.filter_eq_nil_iff]
        intro a ha
        simp only [decide_eq_true_eq]
        exact hnew a ha)
  have hstep2 : importRowStep db.users campus_id user
      (ImportState.mk (db.stocks ++ [mkImportStock campus_id user (freshStockId db) r1 q1 p1
          (rowAssigned db.users (0 + 2) r1).1]) 1
        ([] ++ (rowAssigned db.users (0 + 2) r1).2) (freshStockId db + 1)) (1 + 2) r2 =
      { ImportState.mk (db.stocks ++ [mkImportStock campus_id user (freshStockId db) r1 q1 p1
            (rowAssigned db.users (0 + 2) r1).1]) 1
          ([] ++ (rowAssigned db.users (0 + 2) r1).2) (freshStockId db + 1) with
        errors := ([] ++ (rowAssigned db.users (0 + 2) r1).2) ++
          [s!"Row {1 + 2}: Asset tag already exists, skipped."] } := by
    refine importRowStep_dup db.users campus_id user _ (1 + 2) r2 q2 p2 t h21 h22 hq2 hp2 ht2 ?_
    dsimp only
    rw [List.filter_append]
    have : (List.filter (fun s => decide (s.asset_tag = some t))
        [mkImportStock campus_id user (freshStockId db) r1 q1 p1
          (rowAssigned db.users (0 + 2) r1).1]) =
        [mkImportStock campus_id user (freshStockId db) r1 q1 p1
          (rowAssigned db.users (0 + 2) r1).1] := by
      rw [List.filter_cons]
      simp [mkImportStock, ht1]
    rw [this]
    simp
  have hfold : (upload_excel db campus_id [r1, r2] user) =
      ({ db with stocks := db.stocks ++ [mkImportStock campus_id user (freshStockId db) r1 q1 p1
          (rowAssigned db.users (0 + 2) r1).1] }, 1,
        ([] ++ (rowAssigned db.users (0 + 2) r1).2) ++
          [s!"Row {1 + 2}: Asset tag already exists, skipped."]) := by
    unfold upload_excel
    rw [hc]
    dsimp only
    rw [henum]
    rw [List.foldl_cons, List.foldl_cons, List.foldl_nil]
    rw [hstep1, hstep2]
  rw [hfold]
  refine ⟨rfl, rfl, ?_⟩
  simp only [List.mem_append, List.mem_singleton]
  right
  rfl

/-- C8 witness rows: identical fresh tag, both otherwise valid. -/
def exRowTag1 : ImportRow :=
  ⟨.strC "Dell", .na, .intC 1, .na, .intC 45000, .na, .na, .strC "IT-2024-0001", .na, .na⟩

/-- Second witness row with the same tag. -/
def exRowTag2 : ImportRow :=
  ⟨.strC "HP", .na, .intC 2, .na, .intC 18000, .na, .na, .strC "IT-2024-0001", .na, .na⟩

/-- Witness for C8: the two-row duplicate-tag file imports only the
first row and records the per-row error for Excel row 3. -/
theorem duplicate_asset_tag_second_skipped_witness :
    (upload_excel exDB 1 [exRowTag1, exRowTag2] "u").1.stocks =
      exDB.stocks ++ [mkImportStock 1 "u" (freshStockId exDB) exRowTag1 1 45000
        (rowAssigned exDB.users 2 exRowTag1).1] ∧
    (upload_excel exDB 1 [exRowTag1, exRowTag2] "u").2.1 = 1 ∧
    s!"Row 3: Asset tag already exists, skipped." ∈
      (upload_excel exDB 1 [exRowTag1, exRowTag2] "u").2.2 :=
  duplicate_asset_tag_second_skipped exDB 1 "u" exCampusA exRowTag1 exRowTag2 "IT-2024-0001"
    1 2 45000 18000 (by decide) (by decide) (by decide) (by decide) (by decide) (by decide)
    (by decide) (by decide) (by decide) (by decide) (by decide) (by decide)

/-! ## Sorting lemmas for the insertion-sort model of `ORDER BY` -/

theorem insertLe_perm {α : Type} (le : α → α → Bool) (a : α) (l : List α) :
    (insertLe le a l).Perm (a :: l) := by
  induction l with
  | nil => exact List.Perm.refl _
  | cons b t ih =>
    unfold insertLe
    split
    · exact List.Perm.refl _
    · exact (ih.cons b).trans (List.Perm.swap a b t)

theorem insertionSort_perm {α : Type} (le : α → α → Bool) (l : List α) :
    (insertionSort le l).Perm l := by
  induction l with
  | nil => exact List.Perm.refl _
  | cons a t ih =>
    show (insertLe le a (insertionSort le t)).Perm (a :: t)
    exact (insertLe_perm le a _).trans (ih.cons a)

theorem insertLe_pairwise {α : Type} (le : α → α → Bool)
    (htrans : ∀ a b c, le a b = true → le b c = true → le a c = true)
    (htotal : ∀ a b, le a b = true ∨ le b a = true) (a : α) (l : List α)
    (h : l.Pairwise (fun x y => le x y = true)) :
    (insertLe le a l).Pairwise (fun x y => le x y = true) := by
  induction l with
  | nil => simp [insertLe]
  | cons b t ih =>
    rcases List.pairwise_cons.mp h with ⟨hb, ht⟩
    unfold insertLe
    split
    · rename_i hab
      refine List.pairwise_cons.mpr ⟨?_, h⟩
      intro x hx
      rcases List.mem_cons.mp hx with rfl | hxt
      · exact hab
      · exact htrans a b x hab (hb x hxt)
    · rename_i hab
      have hba : le b a = true := by
        rcases htotal a b with h1 | h2
        · exact absurd h1 hab
        · exact h2
      refine List.pairwise_cons.mpr ⟨?_, ih ht⟩
      intro x hx
      have hx2 := (insertLe_perm le a t).mem_iff.mp hx
      rcases List.mem_cons.mp hx2 with rfl | hxt
      · exact hba
      · exact hb x hxt

theorem insertionSort_pairwise {α : Type} (le : α → α → Bool)
    (htrans : ∀ a b c, le a b = true → le b c = true → le a c = true)
    (htotal : ∀ a b, le a b = true ∨ le b a = true) (l : List α) :
    (insertionSort le l).Pairwise (fun x y => le x y = true) := by
  induction l with
  | nil => simp [insertionSort]
  | cons a t ih => exact insertLe_pairwise le htrans htotal a _ ih

/-- Rows with an id different from the replaced one survive an update
untouched. -/
theorem mem_updateStockRow_of_ne (l : List StockRow) (i : Nat) (x r : StockRow)
    (hr : r ∈ l) (hne : r.id ≠ i) : r ∈ updateStockRow l i x :=
  List.mem_map.mpr ⟨r, hr, by simp [hne]⟩

/-- Under the transfer preconditions the route runs `transferApply`,
and the source-row update does not disturb the merge lookup. -/
theorem transfer_apply_of_valid (db : DB) (campus_id : Nat) (form : TransferForm)
    (user : String) (campus toCampus : Campus) (stock : StockRow)
    (hnd : (db.stocks.map (fun s => s.id)).Nodup)
    (hcamp : getCampus db campus_id = some campus)
    (hv : transferFormValid db campus_id form = true)
    (hs : getStock db form.stock_id = some stock)
    (hsc : stock.campus_id = campus_id)
    (ht : getCampus db form.to_campus_id = some toCampus)
    (hq : form.quantity ≤ stock.quantity) :
    transfer_stock db campus_id form user =
      transferApply db campus stock toCampus form.quantity form.remarks user ∧
    (updateStockRow db.stocks stock.id (transferSrcRow stock form.quantity)).filter
        (transferMatch stock toCampus.id) =
      db.stocks.filter (transferMatch stock toCampus.id) := by
  have htc : toCampus.id ≠ campus_id := by
    have h3 := getCampus_id db form.to_campus_id toCampus ht
    unfold transferFormValid at hv
    simp only [Bool.and_eq_true] at hv
    have := contains_other_campus db.campuses campus_id form.to_campus_id hv.1.2
    omega
  have hmem := getStock_mem db form.stock_id stock hs
  constructor
  · unfold transfer_stock
    rw [hcamp]
    simp only [hv, if_true, hs, ht]
    rw [if_neg (by omega : ¬ stock.campus_id ≠ campus_id),
        if_neg (by omega : ¬ stock.quantity < form.quantity)]
  · apply filter_updateStockRow_eq
    · intro a ha hai
      have : a = stock := stock_id_inj db hnd a stock ha hmem.1 (by rw [hai, hmem.2])
      subst this
      unfold transferMatch
      simp only [Bool.and_eq_false_iff]
      left; right
      simp only [decide_eq_false_iff_not]
      omega
    · unfold transferSrcRow transferMatch
      simp only [Bool.and_eq_false_iff]
      left; right
      simp only [decide_eq_false_iff_not]
      omega

/-- C5 claim-side definition, from the claim's words: the merge target
the claim predicts, namely the first matching destination row when the
matches are taken "deterministically ordered by id". -/
def minIdMatch (stocks : List StockRow) (stock : StockRow) (toCampusId : Nat) :
    Option StockRow :=
  (insertionSort (fun a b => a.id ≤ b.id)
    (stocks.filter (transferMatch stock toCampusId))).head?

/-- C5 example source row (campus 1). -/
def exSrc5 : StockRow :=
  ⟨1, "Widget", some "Other", 9, some "pcs", 1, 9, "Good", "Active", 10, none, 1,
    none, none, "u"⟩

/-- C5 example: matching destination row with the *higher* id, listed
first in the engine's return order. -/
def exDst5High : StockRow :=
  ⟨3, "Widget", some "Other", 7, some "pcs", 1, 7, "Good", "Active", 10, none, 2,
    none, none, "u"⟩

/-- C5 example: matching destination row with the *lower* id, listed
second. -/
def exDst5Low : StockRow :=
  ⟨2, "Widget", some "Other", 5, some "pcs", 1, 5, "Good", "Active", 10, none, 2,
    none, none, "u"⟩

/-- C5 example database: the engine returns the id-3 match before the
id-2 match (SQL imposes no order on an unordered query). -/
def exDB5 : DB := ⟨[exCampusA, exCampusB], [], [exSrc5, exDst5High, exDst5Low], [], []⟩

/-- Counterexample to C5 as stated: with two matching destination rows
returned as [id 3, id 2], the claim predicts the merge hits the row
with the least id (2); the code merges into the *first returned* match
instead — the id-2 row is untouched and the id-3 row's quantity grows
from 7 to 8. -/
theorem merge_first_not_min_id :
    (minIdMatch exDB5.stocks exSrc5 2).map (fun s => s.id) = some 2 ∧
    getStock (transfer_stock exDB5 1 (TransferForm.mk 1 2 1 none) "u") 2 =
      getStock exDB5 2 ∧
    (getStock (transfer_stock exDB5 1 (TransferForm.mk 1 2 1 none) "u") 3).map
      (fun s => s.quantity) = some 8 := by decide

/-- **C5 (amended).** When several destination rows match the merge
lookup key, the row merged into is the *first match in the order the
storage engine returns rows* for the unordered query — the code
imposes no ordering by id — and every other row (source aside) is
untouched. -/
theorem merge_target_query_order (db : DB) (campus_id : Nat) (form : TransferForm)
    (user : String) (campus toCampus : Campus) (stock d : StockRow)
    (hnd : (db.stocks.map (fun s => s.id)).Nodup)
    (hcamp : getCampus db campus_id = some campus)
    (hv : transferFormValid db campus_id form = true)
    (hs : getStock db form.stock_id = some stock)
    (hsc : stock.campus_id = campus_id)
    (ht : getCampus db form.to_campus_id = some toCampus)
    (hq : form.quantity ≤ stock.quantity)
    (hdm : (db.stocks.filter (transferMatch stock toCampus.id)).head? = some d) :
    getStock (transfer_stock db campus_id form user) d.id =
      some (transferMergeRow d form.quantity) ∧
    ∀ r ∈ db.stocks, r.id ≠ stock.id → r.id ≠ d.id →
      r ∈ (transfer_stock db campus_id form user).stocks := by
  obtain ⟨happly, hfilter⟩ :=
    transfer_apply_of_valid db campus_id form user campus toCampus stock hnd hcamp hv hs hsc ht hq
  refine ⟨transfer_merge_lookup db campus_id form user campus toCampus stock d
    hnd hcamp hv hs hsc ht hq hdm, ?_⟩
  intro r hr hrs hrd
  rw [happly]
  unfold transferApply
  dsimp only
  rw [hfilter, hdm]
  dsimp only
  exact mem_updateStockRow_of_ne _ _ _ _ (mem_updateStockRow_of_ne _ _ _ _ hr hrs) hrd

/-- Witness for the amended C5: in the two-match example the id-3 row
(first in query order) is the one merged into, and the id-2 row
survives untouched. -/
theorem merge_target_query_order_witness :
    getStock (transfer_stock exDB5 1 (TransferForm.mk 1 2 1 none) "u") 3 =
      some (transferMergeRow exDst5High 1) ∧
    ∀ r ∈ exDB5.stocks, r.id ≠ 1 → r.id ≠ 3 →
      r ∈ (transfer_stock exDB5 1 (TransferForm.mk 1 2 1 none) "u").stocks :=
  merge_target_query_order exDB5 1 (TransferForm.mk 1 2 1 none) "u" exCampusA exCampusB
    exSrc5 exDst5High (by decide) (by decide) (by decide) (by decide) (by decide)
    (by decide) (by decide) (by decide)

/-- C7 claim-side definition, from the claim's words: how low a row's
quantity is *relative to its* `low_stock_threshold` (smaller =
more severely low relative to the threshold). -/
def relDeficit (s : StockRow) : Int := s.quantity - s.low_stock_threshold

/-- C7 example filler row: quantity 1 at threshold 1 (deficit 0). -/
def mkLowRow (i : Nat) : StockRow :=
  ⟨i, "Item", none, 1, none, 0, 0, "Good", "Active", 1, none, 1, none, none, "u"⟩

/-- C7 example row: quantity 2 at threshold 1000 — by far the lowest
quantity *relative to its threshold* (deficit −998). -/
def exDeficitRow : StockRow :=
  ⟨21, "Rare", none, 2, none, 0, 0, "Good", "Active", 1000, none, 1, none, none, "u"⟩

/-- C7 example database: 21 low-stock rows. -/
def exDB7 : DB :=
  ⟨[exCampusA], [], (List.range 20).map (fun i => mkLowRow (i + 1)) ++ [exDeficitRow], [], []⟩

/-- Counterexample to C7 as stated: the row that is (strictly) the
lowest relative to its threshold is a low-stock row, yet the
dashboard's 20-item list — selected by ascending *absolute* quantity —
omits it. -/
theorem dashboard_low_stock_not_relative :
    exDeficitRow ∈ exDB7.stocks ∧
    exDeficitRow.quantity ≤ exDeficitRow.low_stock_threshold ∧
    (∀ s ∈ exDB7.stocks, s.id ≠ 21 → relDeficit exDeficitRow < relDeficit s) ∧
    (dashboardLowStock exDB7).length = 20 ∧
    exDeficitRow ∉ dashboardLowStock exDB7 := by decide

/-- **C7 (amended).** The dashboard's global low-stock list holds only
rows satisfying the low-stock predicate, at most 20 of them, and they
are the ones of lowest *absolute quantity* (not quantity relative to
the threshold): any low-stock row left off the list has quantity at
least that of every listed row. -/
theorem dashboard_low_stock_lowest_quantity (db : DB) :
    (∀ s ∈ dashboardLowStock db, s ∈ db.stocks ∧ s.quantity ≤ s.low_stock_threshold) ∧
    (dashboardLowStock db).length ≤ 20 ∧
    (∀ t ∈ db.stocks, t.quantity ≤ t.low_stock_threshold → t ∉ dashboardLowStock db →
      ∀ s ∈ dashboardLowStock db, s.quantity ≤ t.quantity) := by
  have htrans : ∀ a b c : StockRow, (decide (a.quantity ≤ b.quantity)) = true →
      (decide (b.quantity ≤ c.quantity)) = true →
      (decide (a.quantity ≤ c.quantity)) = true := by
    intro a b c h1 h2
    simp only [decide_eq_true_eq] at h1 h2 ⊢
    omega
  have htotal : ∀ a b : StockRow, (decide (a.quantity ≤ b.quantity)) = true ∨
      (decide (b.quantity ≤ a.quantity)) = true := by
    intro a b
    simp only [decide_eq_true_eq]
    omega
  have hperm := insertionSort_perm (fun a b : StockRow => a.quantity ≤ b.quantity)
    (db.stocks.filter (fun s => s.quantity ≤ s.low_stock_threshold))
  have hpw := insertionSort_pairwise (fun a b : StockRow => a.quantity ≤ b.quantity)
    htrans htotal (db.stocks.filter (fun s => s.quantity ≤ s.low_stock_threshold))
  refine ⟨?_, ?_, ?_⟩
  · intro s hs
    have hsL : s ∈ insertionSort (fun a b : StockRow => a.quantity ≤ b.quantity)
        (db.stocks.filter (fun s => s.quantity ≤ s.low_stock_threshold)) :=
      List.take_subset _ _ hs
    have hsf := hperm.mem_iff.mp hsL
    have := List.mem_filter.mp hsf
    refine ⟨this.1, by simpa using this.2⟩
  · unfold dashboardLowStock
    simp only [List.length_take]
    omega
  · intro t htm htlow htnot s hs
    have htL : t ∈ insertionSort (fun a b : StockRow => a.quantity ≤ b.quantity)
        (db.stocks.filter (fun s => s.quantity ≤ s.low_stock_threshold)) :=
      hperm.mem_iff.mpr (List.mem_filter.mpr ⟨htm, by simpa using htlow⟩)
    rw [← List.take_append_drop 20 (insertionSort (fun a b : StockRow =>
      a.quantity ≤ b.quantity)
      (db.stocks.filter (fun s => s.quantity ≤ s.low_stock_threshold)))] at htL
    have htdrop : t ∈ (insertionSort (fun a b : StockRow => a.quantity ≤ b.quantity)
        (db.stocks.filter (fun s => s.quantity ≤ s.low_stock_threshold))).drop 20 := by
      rcases List.mem_append.mp htL with h1 | h2
      · exact absurd h1 htnot
      · exact h2
    rw [← List.take_append_drop 20 (insertionSort (fun a b : StockRow =>
      a.quantity ≤ b.quantity)
      (db.stocks.filter (fun s => s.quantity ≤ s.low_stock_threshold)))] at hpw
    rcases List.pairwise_append.mp hpw with ⟨_, _, hcross⟩
    have := hcross s hs t htdrop
    simpa using this

/-- Witness for the amended C7: the listed quantity-1 row is indeed no
larger in quantity than the excluded low-stock row. -/
theorem dashboard_low_stock_lowest_quantity_witness :
    (mkLowRow 1).quantity ≤ exDeficitRow.quantity :=
  (dashboard_low_stock_lowest_quantity exDB7).2.2 exDeficitRow (by decide) (by decide)
    (by decide) (mkLowRow 1) (by decide)
